import Mathlib

/-!
Shallow embedding of the geofence-emergent backend (Python) for checking the
natural-language specification against the code.

Modules embedded:
* `Geofence` — `backend/geofence.py` (`GeofenceValidator`)
* `Crypto`   — `backend/crypto_service.py` (`CryptoService`)
* `Auth`     — `backend/auth.py` (token creation / verification)
* `Server`   — `backend/server.py` (rate limiting, token blacklist,
  `get_current_user`, `logout`, the `/files/access` endpoint) together with
  `backend/file_service.py` (`log_file_access`, media-type inference)

Conventions: byte strings are `List Nat` with values `< 256`; wall-clock
instants are `Int` (UTC seconds); the local time of day used by the time-window
check is a `Nat` (seconds since local midnight); ambient state read by the
Python code (`datetime.now()`, random nonces, database lookups) is passed
explicitly as parameters.
-/

namespace Geofence

/-- Result dictionary of `GeofenceValidator.validate_access`: the
`validations` dict with keys `location`, `wifi`, `time`. -/
structure Validations where
  location : String
  wifi : String
  time : String
  deriving Repr, DecidableEq

/-- Return dictionary of `GeofenceValidator.validate_access`:
`{"allowed": ..., "reason": ..., "validations": ...}`. -/
structure ValidationResult where
  allowed : Bool
  reason : String
  validations : Validations
  deriving Repr, DecidableEq

/-- Access request fields read by `validate_access`: `latitude`, `longitude`
(absent keys give `None`), `wifi_ssid` (absent or `None` modelled as `none`).
Coordinates are kept at an abstract type `α` because the repository only ever
feeds them to the floating-point Haversine check, which is abstracted (see
`validate_access`). -/
structure Request (α : Type) where
  latitude : Option α
  longitude : Option α
  wifi_ssid : Option String

/-- Geofence configuration document (`GeofenceConfig` in `models.py`) as read
by `validate_access`.  The time window is the parsed `HH:MM` pair
`(hour, minute)`; the claims quantify over well-formed configurations, where
`datetime.strptime(_, "%H:%M")` succeeds. -/
structure Config (α : Type) where
  latitude : α
  longitude : α
  radius : α
  allowed_ssid : String
  start_time : Nat × Nat
  end_time : Nat × Nat

/-- Python truthiness test `not employee_ssid` for an optional string:
true for `None` and for the empty string. -/
def strFalsy : Option String → Bool
  | none => true
  | some s => s = ""

/-- Python `s.lower()` on the character list of a string. -/
def lowerChars (s : String) : List Char :=
  s.data.map Char.toLower

/-- Embedding of `GeofenceValidator.validate_wifi(employee_ssid, allowed_ssid)`
(`geofence.py` lines 47-61).  Python `a in b` on strings is the substring
(infix) relation on the lowercased texts. -/
def validate_wifi (employee_ssid : Option String) (allowed_ssid : String) :
    Bool × String :=
  if strFalsy employee_ssid then
    (false, "WiFi SSID not provided")
  else
    let s := employee_ssid.getD ""
    let emp := lowerChars s
    let allowed := lowerChars allowed_ssid
    if emp = allowed ∨ emp <:+: allowed ∨ allowed <:+: emp then
      (true, "WiFi validated (" ++ s ++ ")")
    else
      (false, "Unauthorized WiFi network (" ++ s ++ ")")

/-- Seconds since midnight of a parsed `HH:MM` value, matching the Python
`time` object built by `datetime.strptime(s, "%H:%M").time()` (seconds = 0);
comparisons between `time` objects are comparisons of these second counts. -/
def hmSeconds (hm : Nat × Nat) : Nat :=
  hm.1 * 3600 + hm.2 * 60

/-- Zero-padded rendering of a seconds-since-midnight count as `HH:MM`,
matching `current.strftime('%H:%M')`. -/
def fmtHM (sec : Nat) : String :=
  let h := sec / 3600
  let m := (sec % 3600) / 60
  let pad := fun n : Nat => if n < 10 then "0" ++ toString n else toString n
  pad h ++ ":" ++ pad m

/-- Rendering of an `HH:MM` pair as the configuration string it was parsed
from (used only inside failure messages). -/
def fmtPair (hm : Nat × Nat) : String :=
  fmtHM (hmSeconds hm)

/-- Embedding of `GeofenceValidator.validate_time(start_time, end_time)`
(`geofence.py` lines 63-91) on a well-formed (successfully parsed) window.
`cur` is the current local time of day in seconds (`datetime.now().time()`);
a `time` comparison `a <= b` is `≤` on seconds since midnight. -/
def validate_time (start_hm end_hm : Nat × Nat) (cur : Nat) : Bool × String :=
  let startS := hmSeconds start_hm
  let endS := hmSeconds end_hm
  if startS ≤ endS then
    if startS ≤ cur ∧ cur ≤ endS then
      (true, "Time validated (" ++ fmtHM cur ++ ")")
    else
      (false, "Outside allowed hours (current: " ++ fmtHM cur ++ ", allowed: "
        ++ fmtPair start_hm ++ "-" ++ fmtPair end_hm ++ ")")
  else
    if cur ≥ startS ∨ cur ≤ endS then
      (true, "Time validated (" ++ fmtHM cur ++ ")")
    else
      (false, "Outside allowed hours (current: " ++ fmtHM cur ++ ", allowed: "
        ++ fmtPair start_hm ++ "-" ++ fmtPair end_hm ++ ")")

/-- Embedding of `GeofenceValidator.validate_access(request, config,
wfh_approved)` (`geofence.py` lines 93-155).  The floating-point Haversine
check `validate_location` (transcendental `Float` arithmetic) is abstracted as
the parameter `locCheck`, applied exactly where the source applies
`validate_location(lat, lon, config.latitude, config.longitude, config.radius)`;
every theorem below holds for all instantiations of `locCheck`. -/
def validate_access {α : Type} (locCheck : α → α → α → α → α → Bool × String)
    (request : Request α) (config : Config α) (cur : Nat)
    (wfh_approved : Bool) : ValidationResult :=
  if wfh_approved then
    { allowed := true
      reason := "Work from home approved"
      validations := ⟨"bypassed", "bypassed", "bypassed"⟩ }
  else
    let locPair :=
      match request.latitude, request.longitude with
      | some lat, some lon =>
          locCheck lat lon config.latitude config.longitude config.radius
      | _, _ => (false, "Location not provided")
    let wifiPair := validate_wifi request.wifi_ssid config.allowed_ssid
    let timePair := validate_time config.start_time config.end_time cur
    let reasons :=
      (if locPair.1 then [] else [locPair.2])
        ++ (if wifiPair.1 then [] else [wifiPair.2])
        ++ (if timePair.1 then [] else [timePair.2])
    let allowed := locPair.1 && wifiPair.1 && timePair.1
    { allowed := allowed
      reason := if allowed then "Access granted" else String.intercalate "; " reasons
      validations := ⟨locPair.2, wifiPair.2, timePair.2⟩ }

/-- Spec-side definition (for refinement comparison only, from the words of
the specification): the time window is half-open, `t ∈ [start, end)`, and a
window with `start > end` wraps midnight: `t ≥ start ∨ t < end`. -/
def specHalfOpenWindow (start_hm end_hm : Nat × Nat) (cur : Nat) : Bool :=
  let startS := hmSeconds start_hm
  let endS := hmSeconds end_hm
  if startS > endS then
    decide (cur ≥ startS ∨ cur < endS)
  else
    decide (startS ≤ cur ∧ cur < endS)

/-- Closed-interval window actually implemented by `validate_time`:
`t ∈ [start, end]`, wrapping midnight (`t ≥ start ∨ t ≤ end`) when
`start > end`. -/
def closedWindow (start_hm end_hm : Nat × Nat) (cur : Nat) : Bool :=
  let startS := hmSeconds start_hm
  let endS := hmSeconds end_hm
  if startS > endS then
    decide (cur ≥ startS ∨ cur ≤ endS)
  else
    decide (startS ≤ cur ∧ cur ≤ endS)

end Geofence

namespace Crypto

/-- Modelled from the spec: the AES-256-GCM primitive used by
`CryptoService.encrypt_file` / `decrypt_file` lives in the external
`pycryptodome` library and is not part of the repository source.  Following
the spec's AEAD description (ciphertext plus an integrity tag over a fresh
nonce, §4.1 and the glossary), the keystream for the CTR-style layer is an
explicit byte sequence determined by key and nonce. -/
def keystream (key nonce : List Nat) (len : Nat) : List Nat :=
  (List.range len).map (fun i => (key.sum + nonce.sum + i) % 256)

/-- Modelled from the spec: CTR-style encryption layer of the AEAD — the
plaintext XORed bytewise with the key/nonce keystream.  The same operation
decrypts. -/
def ctrApply (key nonce : List Nat) (data : List Nat) : List Nat :=
  data.zipWith Nat.xor (keystream key nonce data.length)

/-- Modelled from the spec: the 16-byte authentication tag of the AEAD,
determined by key, nonce and ciphertext; any single-byte change of nonce or
ciphertext changes the tag (the integrity contract of §4.1: "fails with
IntegrityError if the authentication tag does not verify"). -/
def gcmTag (key nonce ct : List Nat) : List Nat :=
  ((key.sum + nonce.sum + ct.sum) % 256) :: List.replicate 15 0

/-- Embedding of `CryptoService.encrypt_file(file_data, key)`
(`crypto_service.py` lines 152-169): authenticated encryption returning
`nonce + tag + ciphertext`.  The fresh random 16-byte nonce drawn by
`AES.new(key, AES.MODE_GCM)` is passed explicitly. -/
def encrypt_file (file_data key nonce : List Nat) : List Nat :=
  let ciphertext := ctrApply key nonce file_data
  nonce ++ (gcmTag key nonce ciphertext ++ ciphertext)

/-- Embedding of `CryptoService.decrypt_file(encrypted_data, key)`
(`crypto_service.py` lines 171-189): split the blob as
`nonce = data[:16]`, `tag = data[16:32]`, `ciphertext = data[32:]`, then
decrypt and verify; a tag mismatch raises (modelled as `none`), and no
partial plaintext is produced. -/
def decrypt_file (encrypted_data key : List Nat) : Option (List Nat) :=
  let nonce := encrypted_data.take 16
  let tag := (encrypted_data.drop 16).take 16
  let ciphertext := encrypted_data.drop 32
  if gcmTag key nonce ciphertext = tag then
    some (ctrApply key nonce ciphertext)
  else
    none

/-- Embedding of `CryptoService._encapsulate_classical(public_key)`
(`crypto_service.py` lines 94-100): the shared secret is 32 fresh random
bytes (passed explicitly) and the encapsulated form is
`shared_secret + get_random_bytes(16)`; the public key is not used. -/
def encapsulate_classical (shared_secret rand16 : List Nat) :
    List Nat × List Nat :=
  (shared_secret ++ rand16, shared_secret)

/-- Embedding of `CryptoService._decapsulate_classical(secret_key,
encapsulated_key)` (`crypto_service.py` line 122-125): returns
`encapsulated_key[:32]`; the secret key is ignored. -/
def decapsulate_classical (secret_key encapsulated_key : List Nat) :
    List Nat :=
  encapsulated_key.take 32

/-- Embedding of `CryptoService.decapsulate(secret_key, encapsulated_key)`
(`crypto_service.py` lines 102-125) on the in-repository paths: when
`PQC_AVAILABLE` is false, and equally when the external liboqs call raises
(the `except` branch), the function returns the classical fallback result.
The return type records that the Python function either returns bytes or
raises; no raising path exists on these branches and no `DecapsulationError`
type exists anywhere in the repository. -/
def decapsulate (secret_key encapsulated_key : List Nat) :
    Except String (List Nat) :=
  Except.ok (decapsulate_classical secret_key encapsulated_key)

end Crypto

namespace Auth

/-- Claims carried by a JWT issued by `backend/auth.py`: subject, optional
`role` claim, optional `type` claim, and expiry (UTC seconds). -/
structure Payload where
  sub : String
  role : Option String
  typ : Option String
  exp : Int
  deriving Repr, DecidableEq

/-- A signed token: a `Token` value stands for the serialized JWT string
`jwt.encode(payload, secret, HS256)`.  Serialization is deterministic and
injective, so equality of `Token` values models equality of the strings, and
the signing key identity `key` models the HMAC signature (forging a token for
a key one does not hold is impossible, which the embedding expresses by `key`
being part of the value). -/
structure Token where
  payload : Payload
  key : Nat
  deriving Repr, DecidableEq

/-- Embedding of `create_access_token(data)` (`auth.py` lines 39-47) as called
by the server (`server.py` lines 421 and 612) with
`data = {"sub": username, "role": role}`: the default 30-minute expiry is
added, and no `type` claim is set. -/
def create_access_token (sub role : String) (secret : Nat) (now : Int) :
    Token :=
  ⟨⟨sub, some role, none, now + 30 * 60⟩, secret⟩

/-- Embedding of `create_refresh_token(data)` (`auth.py` lines 105-114) as
called with `data = {"sub": username}`: adds the default 7-day expiry and
`"type": "refresh"`. -/
def create_refresh_token (sub : String) (secret : Nat) (now : Int) : Token :=
  ⟨⟨sub, none, some "refresh", now + 7 * 86400⟩, secret⟩

/-- Embedding of `verify_token(token)` (`auth.py` lines 49-54):
`jwt.decode` checks the signature and the `exp` claim and returns the payload;
no other claim (in particular not `type`) is inspected. -/
def verify_token (secret : Nat) (now : Int) (t : Token) : Option Payload :=
  if t.key = secret ∧ now < t.payload.exp then some t.payload else none

/-- Embedding of `verify_refresh_token(token)` (`auth.py` lines 116-124),
which does check `payload.get("type") == "refresh"` — included for contrast
with `verify_token`. -/
def verify_refresh_token (secret : Nat) (now : Int) (t : Token) :
    Option String :=
  match verify_token secret now t with
  | none => none
  | some p => if p.typ = some "refresh" then some p.sub else none

end Auth

namespace Server

/-- User document as returned by the `db.users` lookup in
`get_current_user` (fields relevant to the claims). -/
structure User where
  username : String
  role : String
  deriving Repr, DecidableEq

/-- The 401 error cases raised by `get_current_user` (`server.py` lines
222-241), in source order. -/
inductive AuthError where
  | notAuthenticated
  | revoked
  | invalidToken
  | userNotFound
  deriving Repr, DecidableEq

/-- Embedding of `is_token_blacklisted(token)` (`server.py` lines 82-86,
in-memory branch): membership in the blacklist set. -/
def is_token_blacklisted (blacklist : List Auth.Token) (t : Auth.Token) :
    Bool :=
  t ∈ blacklist

/-- Embedding of `blacklist_token(token)` (`server.py` lines 88-95,
in-memory branch): insert into the blacklist set; nothing is ever removed
from the in-memory set. -/
def blacklist_token (blacklist : List Auth.Token) (t : Auth.Token) :
    List Auth.Token :=
  t :: blacklist

/-- Embedding of the `get_current_user` dependency (`server.py` lines
222-241).  The `Authorization: Bearer <token>` header carrying a serialized
token is modelled as `Option Auth.Token` (`none` when the header is absent or
lacks the `Bearer ` prefix).  Checks run in source order: blacklist first,
then `verify_token`, then the user lookup. -/
def get_current_user (secret : Nat) (now : Int)
    (blacklist : List Auth.Token) (users : String → Option User)
    (authorization : Option Auth.Token) : Except AuthError User :=
  match authorization with
  | none => Except.error AuthError.notAuthenticated
  | some t =>
    if is_token_blacklisted blacklist t then
      Except.error AuthError.revoked
    else
      match Auth.verify_token secret now t with
      | none => Except.error AuthError.invalidToken
      | some payload =>
        match users payload.sub with
        | none => Except.error AuthError.userNotFound
        | some u => Except.ok u

/-- Embedding of the `logout` endpoint's effect on the blacklist
(`server.py` lines 572-585): the presented bearer token is blacklisted. -/
def logout (blacklist : List Auth.Token) (t : Auth.Token) :
    List Auth.Token :=
  blacklist_token blacklist t

/-- Pruning step of `check_rate_limit` (`server.py` line 101): keep the
attempts strictly newer than `now - window_minutes` minutes.  Instants are
UTC seconds. -/
def prune_attempts (window_minutes now : Int) (attempts : List Int) :
    List Int :=
  attempts.filter (fun attempt => now - window_minutes * 60 < attempt)

/-- Embedding of `check_rate_limit(identifier)` (`server.py` lines 95-109)
for one identifier: returns (allowed?, updated attempt list).  A blocked
check does not record the attempt. -/
def check_rate_limit (max_attempts : Nat) (window_minutes now : Int)
    (attempts : List Int) : Bool × List Int :=
  let pruned := prune_attempts window_minutes now attempts
  if max_attempts ≤ pruned.length then
    (false, pruned)
  else
    (true, pruned ++ [now])

/-- The attempt list stored for one identifier after a sequence of
`check_rate_limit` calls at the given instants, starting from the
`defaultdict(list)` empty list. -/
def run_rate_checks (max_attempts : Nat) (window_minutes : Int)
    (times : List Int) : List Int :=
  times.foldl
    (fun st t => (check_rate_limit max_attempts window_minutes t st).2) []

/-- Approved WFH grant as read by `access_file` (`server.py` lines
1026-1060): grant id (`str(_id)`, a nonempty ObjectId string) and the
allocated window bounds after `_parse_iso_to_utc` (`none` when the field is
missing or unparsable). -/
structure WFHGrant where
  id : String
  access_start : Option Int
  access_end : Option Int

/-- Decision dictionary built by the employee branch of `access_file`: the
bypass branch builds `{"allowed": ..., "reason": ...}` with no
`validations` key, while the geofence branches carry one. -/
structure DecisionResult where
  allowed : Bool
  reason : String
  validations : Option Geofence.Validations
  deriving Repr, DecidableEq

/-- Wrap a `GeofenceValidator.validate_access` result as the decision
dictionary used by `access_file`. -/
def ofValidation (v : Geofence.ValidationResult) : DecisionResult :=
  ⟨v.allowed, v.reason, some v.validations⟩

/-- Body fields of the `/files/access` request (`AccessRequest` in
`models.py`): `latitude` and `longitude` are required fields, `wifi_ssid` is
optional. -/
structure AccessRequest (α : Type) where
  latitude : α
  longitude : α
  wifi_ssid : Option String
  file_id : String

/-- Embedding of the decision logic of the employee branch of `access_file`
(`server.py` lines 1025-1070): WFH grant with an allocated window covering
`now` bypasses validation; otherwise the geofence validation runs with
`wfh_approved = False`.  Returns the decision and the `wfh_id` recorded for
the log (set only on the bypass path). -/
def employee_decision {α : Type}
    (locCheck : α → α → α → α → α → Bool × String)
    (wfh : Option WFHGrant) (now : Int) (req : Geofence.Request α)
    (cfg : Geofence.Config α) (cur : Nat) : DecisionResult × Option String :=
  match wfh with
  | some g =>
    match g.access_start, g.access_end with
    | some s, some e =>
      if s ≤ now ∧ now ≤ e then
        (⟨true, "WFH approved - time window active", none⟩, some g.id)
      else
        (ofValidation (Geofence.validate_access locCheck req cfg cur false),
          none)
    | _, _ =>
      (ofValidation (Geofence.validate_access locCheck req cfg cur false),
        none)
  | none =>
    (ofValidation (Geofence.validate_access locCheck req cfg cur false), none)

/-- Access-decision log document written by
`FileService.log_file_access` (`file_service.py` lines 243-288).  The
`location` dict `{"lat", "lon"}` is always non-empty hence always stored;
`wifi_ssid` and `wfh_request_id` are stored only when truthy. -/
structure LogEntry (α : Type) where
  employee_username : String
  file_id : String
  filename : String
  action : String
  success : Bool
  reason : String
  location : α × α
  wifi_ssid : Option String
  wfh_request_id : Option String

/-- Stored file as visible to `access_file` after a successful
`FileService.download_file`: metadata filename plus decrypted content.  A
`none` lookup is the `ValueError("File ... not found")` path. -/
structure FileObj where
  filename : String
  content : List Nat

/-- Embedding of `FileService._get_media_type(filename)` (`file_service.py`
lines 210-241): first matching extension of the lowercased name, in the
insertion order of the Python dict, else `application/octet-stream`. -/
def get_media_type (filename : String) : String :=
  let f := Geofence.lowerChars filename
  if ".pdf".data <:+ f then "application/pdf"
  else if ".jpg".data <:+ f then "image/jpeg"
  else if ".jpeg".data <:+ f then "image/jpeg"
  else if ".png".data <:+ f then "image/png"
  else if ".gif".data <:+ f then "image/gif"
  else if ".txt".data <:+ f then "text/plain"
  else if ".log".data <:+ f then "text/plain"
  else if ".json".data <:+ f then "application/json"
  else if ".csv".data <:+ f then "text/csv"
  else if ".md".data <:+ f then "text/markdown"
  else if ".webp".data <:+ f then "image/webp"
  else if ".bmp".data <:+ f then "image/bmp"
  else "application/octet-stream"

/-- Responses of the `/files/access` endpoint: a streamed decrypted file, a
403 carrying the structured decision, or a 404. -/
inductive Resp (α : Type) where
  | stream (filename media_type : String) (content : List Nat)
  | forbidden (detail : DecisionResult)
  | notFound (detail : String)

/-- Observable actions of one `access_file` call, in order: access-log
inserts (`log_file_access`) and the response handed to the caller. -/
inductive Event (α : Type) where
  | log (entry : LogEntry α)
  | respond (r : Resp α)

/-- Whether an observable action is an access-log insert. -/
def Event.isLog {α : Type} : Event α → Bool
  | Event.log _ => true
  | Event.respond _ => false

/-- Embedding of the `/files/access` endpoint `access_file`
(`server.py` lines 1006-1111), as the ordered list of its observable actions.
Inputs: the authenticated caller, the request body, the most recent approved
WFH grant for the caller (if any), the geofence configuration, the UTC
instant `now`, the local time of day `cur`, and the stored-file lookup
`store` (metadata plus decrypted content; `none` is the
`ValueError("File ... not found")` path of `FileService.download_file`). -/
def access_file {α : Type}
    (locCheck : α → α → α → α → α → Bool × String)
    (user : User) (req : AccessRequest α) (wfh : Option WFHGrant)
    (cfg : Geofence.Config α) (now : Int) (cur : Nat)
    (store : String → Option FileObj) : List (Event α) :=
  if user.role ≠ "employee" then
    match store req.file_id with
    | none =>
      [Event.respond (Resp.notFound ("File " ++ req.file_id ++ " not found"))]
    | some f =>
      [Event.respond (Resp.stream f.filename (get_media_type f.filename)
        f.content)]
  else
    let geoReq : Geofence.Request α :=
      ⟨some req.latitude, some req.longitude, req.wifi_ssid⟩
    let decision := employee_decision locCheck wfh now geoReq cfg cur
    let result := decision.1
    let filename := match store req.file_id with
      | some f => f.filename
      | none => ""
    let entry : LogEntry α :=
      { employee_username := user.username
        file_id := req.file_id
        filename := filename
        action := "access"
        success := result.allowed
        reason := result.reason
        location := (req.latitude, req.longitude)
        wifi_ssid :=
          if Geofence.strFalsy req.wifi_ssid then none else req.wifi_ssid
        wfh_request_id := decision.2 }
    if result.allowed = false then
      [Event.log entry, Event.respond (Resp.forbidden result)]
    else
      match store req.file_id with
      | none =>
        [Event.log entry,
          Event.respond (Resp.notFound ("File " ++ req.file_id ++ " not found"))]
      | some f =>
        [Event.log entry,
          Event.respond (Resp.stream f.filename (get_media_type f.filename)
            f.content)]

end Server

namespace Geofence

/-- C3 counterexample: the claim "validate_time allows t exactly when t lies
in the half-open window [start, end)" fails at the concrete input
window 09:00-17:00 with current time exactly 17:00:00 — the code allows it
(`start <= current <= end` is inclusive) while the half-open window denies
it. -/
theorem C3_counterexample_end_boundary :
    (validate_time (9, 0) (17, 0) (17 * 3600)).1 = true ∧
      specHalfOpenWindow (9, 0) (17, 0) (17 * 3600) = false := by
  decide

/-- C3 amended: validate_time allows t exactly when t lies in the CLOSED
window [start, end], where a window with start > end wraps midnight
(t ≥ start or t ≤ end); with window 22:00-06:00, 23:30 is allowed and 12:00
is denied. -/
theorem C3_time_window_closed_interval (start_hm end_hm : Nat × Nat)
    (cur : Nat) :
    (validate_time start_hm end_hm cur).1 = closedWindow start_hm end_hm cur ∧
      (validate_time (22, 0) (6, 0) (23 * 3600 + 30 * 60)).1 = true ∧
      (validate_time (22, 0) (6, 0) (12 * 3600)).1 = false := by
  refine ⟨?_, by decide, by decide⟩
  simp only [validate_time, closedWindow]
  split_ifs with h1 h2 <;> simp_all <;> omega

/-- C8: when the coordinates or the network identifier are missing from the
request, `validate_access` (a total function — no exception is raised; the
source guards both reads before using them) reports the corresponding check
as failed and denies access. -/
theorem C8_missing_inputs_fail_closed {α : Type}
    (locCheck : α → α → α → α → α → Bool × String)
    (request : Request α) (config : Config α) (cur : Nat) :
    (request.latitude = none ∨ request.longitude = none →
      (validate_access locCheck request config cur false).allowed = false ∧
        (validate_access locCheck request config cur false).validations.location
          = "Location not provided") ∧
    (strFalsy request.wifi_ssid = true →
      (validate_access locCheck request config cur false).allowed = false ∧
        (validate_access locCheck request config cur false).validations.wifi
          = "WiFi SSID not provided") := by
  constructor
  · intro h
    rcases h with h | h <;>
      · simp only [validate_access]
        rw [h]
        rcases request.latitude with _ | lat <;>
          rcases request.longitude with _ | lon <;>
            simp
  · intro h
    simp only [validate_access, validate_wifi, h]
    rcases request.latitude with _ | lat <;>
      rcases request.longitude with _ | lon <;>
        simp [if_pos h]

/-- C8 witness: a request with no latitude and no wifi_ssid is denied with
both checks reported as failed. -/
theorem C8_witness :
    (validate_access (fun _ _ _ _ _ => (true, "ok"))
        (⟨none, some (0 : Nat), none⟩ : Request Nat)
        ⟨0, 0, 0, "Office", (9, 0), (17, 0)⟩ 36000 false).allowed = false ∧
      (validate_access (fun _ _ _ _ _ => (true, "ok"))
        (⟨none, some (0 : Nat), none⟩ : Request Nat)
        ⟨0, 0, 0, "Office", (9, 0), (17, 0)⟩ 36000 false).validations.location
          = "Location not provided" ∧
      (validate_access (fun _ _ _ _ _ => (true, "ok"))
        (⟨none, some (0 : Nat), none⟩ : Request Nat)
        ⟨0, 0, 0, "Office", (9, 0), (17, 0)⟩ 36000 false).validations.wifi
          = "WiFi SSID not provided" := by
  refine ⟨?_, ?_, ?_⟩
  · exact ((C8_missing_inputs_fail_closed (fun _ _ _ _ _ => (true, "ok"))
      (⟨none, some (0 : Nat), none⟩ : Request Nat)
      ⟨0, 0, 0, "Office", (9, 0), (17, 0)⟩ 36000).1 (Or.inl rfl)).1
  · exact ((C8_missing_inputs_fail_closed (fun _ _ _ _ _ => (true, "ok"))
      (⟨none, some (0 : Nat), none⟩ : Request Nat)
      ⟨0, 0, 0, "Office", (9, 0), (17, 0)⟩ 36000).1 (Or.inl rfl)).2
  · exact ((C8_missing_inputs_fail_closed (fun _ _ _ _ _ => (true, "ok"))
      (⟨none, some (0 : Nat), none⟩ : Request Nat)
      ⟨0, 0, 0, "Office", (9, 0), (17, 0)⟩ 36000).2 rfl).2

/-- C9: an empty configured allowed SSID matches every provided non-empty
network name, because the lowercased empty string is a substring of every
string and `validate_wifi` accepts either side being a substring of the
other. -/
theorem C9_empty_allowed_ssid_matches_all (s : String) (h : s ≠ "") :
    validate_wifi (some s) "" = (true, "WiFi validated (" ++ s ++ ")") := by
  simp only [validate_wifi, strFalsy]
  rw [if_neg (by simpa using h)]
  simp only [Option.getD_some]
  have h0 : lowerChars "" = [] := rfl
  rw [h0, if_pos (Or.inr (Or.inr List.nil_infix))]

/-- C9 witness: the concrete SSID "OfficeWiFi" is validated against an empty
configured SSID. -/
theorem C9_witness : validate_wifi (some "OfficeWiFi") "" =
    (true, "WiFi validated (OfficeWiFi)") :=
  C9_empty_allowed_ssid_matches_all "OfficeWiFi" (by decide)

end Geofence

namespace Crypto

/-- C5 counterexample: with a secret key that did not produce the
encapsulation (`[7, 7, ...]` versus the keypair the secret `List.range 32`
was encapsulated for), `decapsulate` does not fail with a DecapsulationError:
it returns `ok` — and in fact the very shared secret of the encapsulation,
since the classical path ignores the key entirely. -/
theorem C5_counterexample_mismatched_key_returns_ok :
    decapsulate (List.replicate 32 7)
        (encapsulate_classical (List.range 32) (List.range 16)).1
      = Except.ok (List.range 32) := by
  simp [decapsulate, decapsulate_classical, encapsulate_classical,
    List.take_left' (by simp : (List.range 32).length = 32)]

/-- C5 amended: `decapsulate` (classical fallback path, the only one the
repository implements) never fails: it returns the first 32 bytes of the
encapsulated key regardless of the secret key, so a mismatched secret key
yields the same shared secret as the matching one instead of a
DecapsulationError. -/
theorem C5_decapsulate_ignores_secret_key
    (secret_key other_key shared_secret rand16 enc : List Nat)
    (h : shared_secret.length = 32) :
    decapsulate secret_key enc = Except.ok (enc.take 32) ∧
      decapsulate secret_key enc = decapsulate other_key enc ∧
      decapsulate secret_key (encapsulate_classical shared_secret rand16).1
        = Except.ok shared_secret := by
  refine ⟨rfl, rfl, ?_⟩
  simp [decapsulate, decapsulate_classical, encapsulate_classical,
    List.take_left' h]

/-- C5 witness: concrete round trip of the amended statement. -/
theorem C5_witness :
    decapsulate [1] (encapsulate_classical (List.range 32) []).1
      = Except.ok (List.range 32) :=
  (C5_decapsulate_ignores_secret_key [1] [2] (List.range 32) [] []
    (by simp)).2.2

end Crypto

namespace Server

/-- C1: evaluation of `get_current_user` at the failing input.  A refresh
token (signed with the server secret, carrying `"type": "refresh"`, unexpired
— `verify_refresh_token` accepts it as a refresh token) presented as the
bearer token of an authenticated call is ACCEPTED: `verify_token` checks only
signature and expiry, never the `type` claim, so the call returns the user
instead of a 401. -/
theorem C1_refresh_token_accepted_as_access :
    get_current_user 7 100 []
        (fun u => if u = "alice" then some ⟨"alice", "employee"⟩ else none)
        (some (Auth.create_refresh_token "alice" 7 0))
      = Except.ok ⟨"alice", "employee"⟩ ∧
      (Auth.create_refresh_token "alice" 7 0).payload.typ = some "refresh" ∧
      Auth.verify_refresh_token 7 100 (Auth.create_refresh_token "alice" 7 0)
        = some "alice" := by
  refine ⟨?_, rfl, ?_⟩ <;> rfl

/-- C7: once a token has been inserted into the revocation set by `logout`,
any later authenticated call presenting that token is rejected with the
revoked-token 401 — `get_current_user` consults the blacklist before
`verify_token`, i.e. before any claim of the token is trusted, and the
in-memory blacklist only ever grows (`blacklist'` is any superset of the
post-logout set). -/
theorem C7_logged_out_token_rejected (secret : Nat) (now : Int)
    (blacklist blacklist' : List Auth.Token) (users : String → Option User)
    (t : Auth.Token)
    (hsub : ∀ x ∈ logout blacklist t, x ∈ blacklist') :
    get_current_user secret now blacklist' users (some t)
      = Except.error AuthError.revoked := by
  have ht : t ∈ blacklist' := hsub t (by simp [logout, blacklist_token])
  simp [get_current_user, is_token_blacklisted, ht]

/-- C7 witness: logging out a concrete access token and retrying with it is
rejected as revoked. -/
theorem C7_witness :
    get_current_user 1 0
        (logout [] (Auth.create_access_token "alice" "employee" 1 0))
        (fun _ => none)
        (some (Auth.create_access_token "alice" "employee" 1 0))
      = Except.error AuthError.revoked :=
  C7_logged_out_token_rejected 1 0 []
    (logout [] (Auth.create_access_token "alice" "employee" 1 0))
    (fun _ => none) (Auth.create_access_token "alice" "employee" 1 0)
    (fun _ hx => hx)

/-- C6: when the caller holds an approved WFH grant whose allocated window
covers `now`, the access decision is allow, immediately, with the override
reason, independently of location/network/time (the right-hand side mentions
none of `req`, `cfg`, `cur`, `locCheck`, so the checks are skipped for every
value of them); and the geofence evaluator's own bypass branch reports all
three checks as bypassed. -/
theorem C6_wfh_override_bypasses_checks {α : Type}
    (locCheck : α → α → α → α → α → Bool × String) (g : WFHGrant)
    (now : Int) (s e : Int) (req : Geofence.Request α)
    (cfg : Geofence.Config α) (cur : Nat)
    (hs : g.access_start = some s) (he : g.access_end = some e)
    (h1 : s ≤ now) (h2 : now ≤ e) :
    employee_decision locCheck (some g) now req cfg cur
      = (⟨true, "WFH approved - time window active", none⟩, some g.id) ∧
      Geofence.validate_access locCheck req cfg cur true
        = ⟨true, "Work from home approved",
            ⟨"bypassed", "bypassed", "bypassed"⟩⟩ := by
  constructor
  · simp [employee_decision, hs, he, h1, h2]
  · rfl

/-- C6 witness: a concrete grant with window [10, 20] at now = 15. -/
theorem C6_witness :
    employee_decision (fun _ _ _ _ _ => (false, "far"))
        (some ⟨"gid", some 10, some 20⟩) 15
        (⟨some (), some (), some "x"⟩ : Geofence.Request Unit)
        ⟨(), (), (), "Office", (9, 0), (17, 0)⟩ 0
      = (⟨true, "WFH approved - time window active", none⟩, some "gid") ∧
      Geofence.validate_access (fun _ _ _ _ _ => (false, "far"))
          (⟨some (), some (), some "x"⟩ : Geofence.Request Unit)
          ⟨(), (), (), "Office", (9, 0), (17, 0)⟩ 0 true
        = ⟨true, "Work from home approved",
            ⟨"bypassed", "bypassed", "bypassed"⟩⟩ :=
  C6_wfh_override_bypasses_checks (fun _ _ _ _ _ => (false, "far"))
    ⟨"gid", some 10, some 20⟩ 15 10 20
    (⟨some (), some (), some "x"⟩ : Geofence.Request Unit)
    ⟨(), (), (), "Office", (9, 0), (17, 0)⟩ 0 rfl rfl (by decide) (by decide)

end Server

namespace Server

/-- One `check_rate_limit` call keeps the stored list within the cap when it
was within the cap before. -/
theorem check_rate_limit_length (max_attempts : Nat) (window_minutes now : Int)
    (st : List Int) (h : st.length ≤ max_attempts) :
    ((check_rate_limit max_attempts window_minutes now st).2).length
      ≤ max_attempts := by
  have hp : (prune_attempts window_minutes now st).length ≤ st.length :=
    List.length_filter_le _ _
  simp only [check_rate_limit]
  split_ifs with hb
  · exact le_trans hp h
  · simp only [List.length_append, List.length_singleton]
    omega

/-- The stored attempt list reached by any sequence of checks holds at most
`max_attempts` entries. -/
theorem run_rate_checks_length (max_attempts : Nat) (window_minutes : Int)
    (times : List Int) :
    (run_rate_checks max_attempts window_minutes times).length
      ≤ max_attempts := by
  suffices h : ∀ (ts : List Int) (st : List Int), st.length ≤ max_attempts →
      (ts.foldl
        (fun s t => (check_rate_limit max_attempts window_minutes t s).2)
        st).length ≤ max_attempts by
    exact h times [] (by simp)
  intro ts
  induction ts with
  | nil => intro st h; simpa using h
  | cons t ts ih =>
    intro st h
    exact ih _ (check_rate_limit_length _ _ _ _ h)

/-- C10: after any `check_rate_limit` call following any sequence of prior
checks, the stored attempt list holds at most `RATE_LIMIT_MAX_ATTEMPTS`
timestamps, all strictly within the current window; and a blocked check
records nothing — the state is exactly the pruned previous list, so a block
ends as soon as old attempts age out. -/
theorem C10_rate_limit_invariant (max_attempts : Nat)
    (window_minutes : Int) (times : List Int) (now : Int)
    (hw : 0 < window_minutes) :
    ((check_rate_limit max_attempts window_minutes now
        (run_rate_checks max_attempts window_minutes times)).2).length
      ≤ max_attempts ∧
      (∀ a ∈ (check_rate_limit max_attempts window_minutes now
          (run_rate_checks max_attempts window_minutes times)).2,
        now - window_minutes * 60 < a) ∧
      ((check_rate_limit max_attempts window_minutes now
          (run_rate_checks max_attempts window_minutes times)).1 = false →
        (check_rate_limit max_attempts window_minutes now
            (run_rate_checks max_attempts window_minutes times)).2
          = prune_attempts window_minutes now
              (run_rate_checks max_attempts window_minutes times)) := by
  refine ⟨check_rate_limit_length _ _ _ _
    (run_rate_checks_length _ _ _), ?_, ?_⟩
  · intro a ha
    simp only [check_rate_limit] at ha
    split_ifs at ha with hb
    · exact (List.mem_filter.mp ha).2 |> of_decide_eq_true
    · rcases List.mem_append.mp ha with h | h
      · exact (List.mem_filter.mp h).2 |> of_decide_eq_true
      · simp only [List.mem_singleton] at h
        subst h
        omega
  · intro hfalse
    simp only [check_rate_limit] at hfalse ⊢
    split_ifs at hfalse ⊢ with hb
    · rfl

/-- C10 witness: cap 2, window 15 minutes, three prior checks then a fourth
at t = 3. -/
theorem C10_witness :
    ((check_rate_limit 2 15 3 (run_rate_checks 2 15 [0, 1, 2])).2).length
      ≤ 2 :=
  (C10_rate_limit_invariant 2 15 [0, 1, 2] 3 (by decide)).1

end Server

namespace Server

/-- C4 counterexample: an Admin call to the file Access operation returns the
streamed content with NO access-decision log entry at all — the admin branch
of `access_file` never calls `log_file_access`, so the claim "for every
principal (Admin or Employee) a log entry is persisted before the response"
fails at this input. -/
theorem C4_counterexample_admin_access_unlogged :
    access_file (fun _ _ _ _ _ => (true, "ok")) ⟨"root", "admin"⟩
        (⟨(), (), none, "f1"⟩ : AccessRequest Unit) none
        ⟨(), (), (), "Office", (9, 0), (17, 0)⟩ 0 0
        (fun fid => if fid = "f1" then some ⟨"notes.txt", [1, 2]⟩ else none)
      = [Event.respond (Resp.stream "notes.txt" "text/plain" [1, 2])] := by
  rfl

/-- C4 amended: for every EMPLOYEE call to the file Access operation and
every decision outcome, exactly one access-decision log entry — recording
success/failure, the decision reason, the location and network presented,
and the WFH grant id when the bypass was used — is persisted before the
response is returned; Admin calls return without a log entry. -/
theorem C4_employee_logged_before_response {α : Type}
    (locCheck : α → α → α → α → α → Bool × String) (user : User)
    (req : AccessRequest α) (wfh : Option WFHGrant)
    (cfg : Geofence.Config α) (now : Int) (cur : Nat)
    (store : String → Option FileObj)
    (hrole : user.role = "employee") :
    (access_file locCheck user req wfh cfg now cur store).map Event.isLog
      = [true, false] ∧
      (access_file locCheck user req wfh cfg now cur store).head?
        = some (Event.log
          { employee_username := user.username
            file_id := req.file_id
            filename := (match store req.file_id with
              | some f => f.filename
              | none => "")
            action := "access"
            success := (employee_decision locCheck wfh now
              ⟨some req.latitude, some req.longitude, req.wifi_ssid⟩
              cfg cur).1.allowed
            reason := (employee_decision locCheck wfh now
              ⟨some req.latitude, some req.longitude, req.wifi_ssid⟩
              cfg cur).1.reason
            location := (req.latitude, req.longitude)
            wifi_ssid := if Geofence.strFalsy req.wifi_ssid then none
              else req.wifi_ssid
            wfh_request_id := (employee_decision locCheck wfh now
              ⟨some req.latitude, some req.longitude, req.wifi_ssid⟩
              cfg cur).2 }) := by
  have h1 : ¬(user.role ≠ "employee") := by simp [hrole]
  cases hs : store req.file_id <;>
    cases hall : (employee_decision locCheck wfh now
      ⟨some req.latitude, some req.longitude, req.wifi_ssid⟩
      cfg cur).1.allowed <;>
      simp [access_file, if_neg h1, hs, hall, Event.isLog]

/-- C4 witness: a concrete employee call (policy satisfied, file missing)
produces exactly one log entry followed by the response. -/
theorem C4_witness :
    (access_file (fun _ _ _ _ _ => (true, "okloc")) ⟨"bob", "employee"⟩
        (⟨(), (), some "Office", "f9"⟩ : AccessRequest Unit) none
        ⟨(), (), (), "Office", (9, 0), (17, 0)⟩ 0 36000
        (fun _ => none)).map Event.isLog = [true, false] :=
  (C4_employee_logged_before_response (fun _ _ _ _ _ => (true, "okloc"))
    ⟨"bob", "employee"⟩ (⟨(), (), some "Office", "f9"⟩ : AccessRequest Unit)
    none ⟨(), (), (), "Office", (9, 0), (17, 0)⟩ 0 36000
    (fun _ => none) rfl).1

end Server

namespace Crypto

/-- Length of the generated keystream. -/
theorem keystream_length (key nonce : List Nat) (len : Nat) :
    (keystream key nonce len).length = len := by
  simp [keystream]

/-- The CTR layer preserves length. -/
theorem ctrApply_length (key nonce data : List Nat) :
    (ctrApply key nonce data).length = data.length := by
  simp [ctrApply, keystream_length]

/-- The authentication tag is 16 bytes, matching `AES_TAG_SIZE`. -/
theorem gcmTag_length (key nonce ct : List Nat) :
    (gcmTag key nonce ct).length = 16 := by
  simp [gcmTag]

/-- XORing twice with the same stream restores the data. -/
theorem zipWith_xor_cancel : ∀ (l s : List Nat), l.length ≤ s.length →
    (l.zipWith Nat.xor s).zipWith Nat.xor s = l
  | [], _, _ => by simp
  | a :: l, b :: s, h => by
    simp only [List.zipWith_cons_cons, List.cons.injEq]
    exact ⟨Nat.xor_cancel_right b a, zipWith_xor_cancel l s (by simpa using h)⟩

/-- The CTR layer is an involution for a fixed key and nonce. -/
theorem ctrApply_ctrApply (key nonce data : List Nat) :
    ctrApply key nonce (ctrApply key nonce data) = data := by
  have hlen : (ctrApply key nonce data).length = data.length :=
    ctrApply_length key nonce data
  show (ctrApply key nonce data).zipWith Nat.xor
      (keystream key nonce (ctrApply key nonce data).length) = data
  rw [hlen]
  exact zipWith_xor_cancel data (keystream key nonce data.length)
    (by rw [keystream_length])

/-- Replacing the element at a valid index shifts the list sum by the
difference of new and old element. -/
theorem sum_set : ∀ (l : List Nat) (i : Nat) (b : Nat) (h : i < l.length),
    (l.set i b).sum + l.get ⟨i, h⟩ = l.sum + b
  | a :: l, 0, b, _ => by simp [List.sum_cons]; omega
  | a :: l, i + 1, b, h => by
    simp only [List.set_cons_succ, List.sum_cons, List.get_cons_succ]
    have := sum_set l i b (by simpa using h)
    omega

/-- Writing a value different from the stored one changes the list. -/
theorem set_ne : ∀ (l : List Nat) (i : Nat) (b : Nat) (h : i < l.length),
    b ≠ l.get ⟨i, h⟩ → l.set i b ≠ l
  | a :: l, 0, b, _, hne => by simpa using hne
  | a :: l, i + 1, b, h, hne => by
    simp only [List.set_cons_succ, ne_eq, List.cons.injEq, not_and]
    intro _
    exact set_ne l i b (by simpa using h) (by simpa using hne)

/-- Bytewise XOR of byte-valued lists stays byte-valued. -/
theorem mem_zipWith_xor_lt : ∀ (l s : List Nat),
    (∀ b ∈ l, b < 256) → (∀ b ∈ s, b < 256) →
    ∀ x ∈ l.zipWith Nat.xor s, x < 256
  | [], _, _, _ => by simp
  | _ :: _, [], _, _ => by simp
  | a :: l, c :: s, hl, hs => by
    intro x hx
    simp only [List.zipWith_cons_cons, List.mem_cons] at hx
    rcases hx with rfl | hx
    · have h8 : (256 : Nat) = 2 ^ 8 := by norm_num
      rw [h8]
      exact Nat.xor_lt_two_pow (h8 ▸ hl a (by simp)) (h8 ▸ hs c (by simp))
    · exact mem_zipWith_xor_lt l s (fun b hb => hl b (by simp [hb]))
        (fun b hb => hs b (by simp [hb])) x hx

/-- Keystream bytes are byte-valued. -/
theorem mem_keystream_lt (key nonce : List Nat) (len : Nat) :
    ∀ x ∈ keystream key nonce len, x < 256 := by
  intro x hx
  simp only [keystream, List.mem_map] at hx
  obtain ⟨i, _, rfl⟩ := hx
  exact Nat.mod_lt _ (by norm_num)

/-- Ciphertext bytes of byte-valued plaintexts are byte-valued. -/
theorem mem_ctrApply_lt (key nonce data : List Nat)
    (hd : ∀ b ∈ data, b < 256) : ∀ x ∈ ctrApply key nonce data, x < 256 :=
  mem_zipWith_xor_lt data _ hd (mem_keystream_lt key nonce data.length)

/-- The `decrypt_file` slicing `[:16]`, `[16:32]`, `[32:]` inverts the
`nonce + tag + ciphertext` concatenation of `encrypt_file`. -/
theorem parse_blob (nonce tag ct : List Nat) (hn : nonce.length = 16)
    (ht : tag.length = 16) :
    (nonce ++ (tag ++ ct)).take 16 = nonce ∧
      ((nonce ++ (tag ++ ct)).drop 16).take 16 = tag ∧
      (nonce ++ (tag ++ ct)).drop 32 = ct := by
  refine ⟨List.take_left' hn, ?_, ?_⟩
  · rw [List.drop_left' hn, List.take_left' ht]
  · have h32 : (32 : Nat) = nonce.length + 16 := by omega
    rw [h32, List.drop_append, List.drop_left' ht]

/-- Round trip of the file AEAD: decrypting an `encrypt_file` blob with the
same key restores the plaintext exactly. -/
theorem decrypt_encrypt (file_data key nonce : List Nat)
    (hnonce : nonce.length = 16) :
    decrypt_file (encrypt_file file_data key nonce) key = some file_data := by
  obtain ⟨h1, h2, h3⟩ := parse_blob nonce
    (gcmTag key nonce (ctrApply key nonce file_data))
    (ctrApply key nonce file_data) hnonce (gcmTag_length _ _ _)
  simp only [encrypt_file, decrypt_file, h1, h2, h3, if_pos]
  rw [ctrApply_ctrApply]

/-- Tags with distinct leading bytes are distinct. -/
theorem gcmTag_ne_of_head_ne (key n1 c1 n2 c2 : List Nat)
    (h : (key.sum + n1.sum + c1.sum) % 256
      ≠ (key.sum + n2.sum + c2.sum) % 256) :
    gcmTag key n1 c1 ≠ gcmTag key n2 c2 := by
  intro heq
  simp only [gcmTag, List.cons.injEq] at heq
  exact h heq.1

/-- Overwriting any single byte of an `encrypt_file` blob with a different
byte value makes `decrypt_file` fail the tag check and return no
plaintext. -/
theorem decrypt_encrypt_tampered (file_data key nonce : List Nat)
    (hnonce : nonce.length = 16)
    (hpt : ∀ b ∈ file_data, b < 256) (hnb : ∀ b ∈ nonce, b < 256)
    (i : Nat) (h : i < (encrypt_file file_data key nonce).length)
    (b : Nat) (hb : b < 256)
    (hne : b ≠ (encrypt_file file_data key nonce).get ⟨i, h⟩) :
    decrypt_file ((encrypt_file file_data key nonce).set i b) key = none := by
  have htlen :
      (gcmTag key nonce (ctrApply key nonce file_data)).length = 16 :=
    gcmTag_length _ _ _
  have hblob : encrypt_file file_data key nonce
      = nonce ++ (gcmTag key nonce (ctrApply key nonce file_data)
          ++ ctrApply key nonce file_data) := rfl
  have hlen : (encrypt_file file_data key nonce).length
      = 32 + (ctrApply key nonce file_data).length := by
    rw [hblob]
    simp only [List.length_append, hnonce, htlen]
    omega
  rcases Nat.lt_or_ge i 16 with hi | hi
  · have hini : i < nonce.length := by omega
    have hset : (encrypt_file file_data key nonce).set i b
        = nonce.set i b ++ (gcmTag key nonce (ctrApply key nonce file_data)
            ++ ctrApply key nonce file_data) := by
      rw [hblob]
      exact List.set_append_left _ _ hini
    obtain ⟨p1, p2, p3⟩ := parse_blob (nonce.set i b)
      (gcmTag key nonce (ctrApply key nonce file_data))
      (ctrApply key nonce file_data) (by simp [hnonce]) htlen
    have hget : (encrypt_file file_data key nonce).get ⟨i, h⟩
        = nonce.get ⟨i, hini⟩ := by
      simp only [hblob, List.get_eq_getElem]
      rw [List.getElem_append_left hini]
    have hold : nonce.get ⟨i, hini⟩ < 256 :=
      hnb _ (List.get_mem nonce i hini)
    have hsum := sum_set nonce i b hini
    have hhead : (key.sum + (nonce.set i b).sum
          + (ctrApply key nonce file_data).sum) % 256
        ≠ (key.sum + nonce.sum
          + (ctrApply key nonce file_data).sum) % 256 := by
      have hne2 : nonce.get ⟨i, hini⟩ ≠ b := fun hx => hne (hget ▸ hx.symm)
      omega
    rw [hset]
    simp only [decrypt_file, p1, p2, p3]
    rw [if_neg (gcmTag_ne_of_head_ne _ _ _ _ _ hhead)]
  rcases Nat.lt_or_ge i 32 with hi2 | hi2
  · have hj : i - 16
        < (gcmTag key nonce (ctrApply key nonce file_data)).length := by
      omega
    have hset : (encrypt_file file_data key nonce).set i b
        = nonce ++
          ((gcmTag key nonce (ctrApply key nonce file_data)).set (i - 16) b
            ++ ctrApply key nonce file_data) := by
      rw [hblob, List.set_append_right _ _ (by omega : nonce.length ≤ i),
        hnonce,
        List.set_append_left _ _ (by omega :
          i - 16 < (gcmTag key nonce (ctrApply key nonce file_data)).length)]
    obtain ⟨p1, p2, p3⟩ := parse_blob nonce
      ((gcmTag key nonce (ctrApply key nonce file_data)).set (i - 16) b)
      (ctrApply key nonce file_data) hnonce (by simp [htlen])
    have hget : (encrypt_file file_data key nonce).get ⟨i, h⟩
        = (gcmTag key nonce (ctrApply key nonce file_data)).get
            ⟨i - 16, hj⟩ := by
      simp only [hblob, List.get_eq_getElem]
      rw [List.getElem_append_right (by omega : nonce.length ≤ i),
        List.getElem_append_left (by omega : i - nonce.length
          < (gcmTag key nonce (ctrApply key nonce file_data)).length)]
      simp [hnonce]
    rw [hset]
    simp only [decrypt_file, p1, p2, p3]
    rw [if_neg]
    intro heq
    exact set_ne _ (i - 16) b hj (fun hx => hne (hget ▸ hx)) heq.symm
  · have hj : i - 32 < (ctrApply key nonce file_data).length := by omega
    have hset : (encrypt_file file_data key nonce).set i b
        = nonce ++ (gcmTag key nonce (ctrApply key nonce file_data)
            ++ (ctrApply key nonce file_data).set (i - 32) b) := by
      rw [hblob, List.set_append_right _ _ (by omega : nonce.length ≤ i),
        List.set_append_right _ _ (by
          simp only [htlen, hnonce]
          omega : (gcmTag key nonce (ctrApply key nonce file_data)).length
            ≤ i - nonce.length)]
      simp only [hnonce, htlen]
      have hidx0 : i - 16 - 16 = i - 32 := by omega
      rw [hidx0]
    obtain ⟨p1, p2, p3⟩ := parse_blob nonce
      (gcmTag key nonce (ctrApply key nonce file_data))
      ((ctrApply key nonce file_data).set (i - 32) b) hnonce htlen
    have hget : (encrypt_file file_data key nonce).get ⟨i, h⟩
        = (ctrApply key nonce file_data).get ⟨i - 32, hj⟩ := by
      simp only [hblob, List.get_eq_getElem]
      rw [List.getElem_append_right (by omega : nonce.length ≤ i),
        List.getElem_append_right (by
          simp only [htlen, hnonce]
          omega : (gcmTag key nonce (ctrApply key nonce file_data)).length
            ≤ i - nonce.length)]
      have hidx : i - 16 - 16 = i - 32 := by omega
      simp [hnonce, htlen, hidx]
    have hold : (ctrApply key nonce file_data).get ⟨i - 32, hj⟩ < 256 :=
      mem_ctrApply_lt key nonce file_data hpt _
        (List.get_mem (ctrApply key nonce file_data) (i - 32) hj)
    have hsum := sum_set (ctrApply key nonce file_data) (i - 32) b hj
    have hhead : (key.sum + nonce.sum
          + ((ctrApply key nonce file_data).set (i - 32) b).sum) % 256
        ≠ (key.sum + nonce.sum
          + (ctrApply key nonce file_data).sum) % 256 := by
      have hne2 : (ctrApply key nonce file_data).get ⟨i - 32, hj⟩ ≠ b :=
        fun hx => hne (hget ▸ hx.symm)
      omega
    rw [hset]
    simp only [decrypt_file, p1, p2, p3]
    rw [if_neg (gcmTag_ne_of_head_ne _ _ _ _ _ hhead)]

/-- C2: for every byte-valued plaintext, 32-byte key and 16-byte nonce,
`decrypt_file (encrypt_file plaintext key) key` returns exactly the original
plaintext, and flipping any single byte of the blob to a different byte
value makes `decrypt_file` fail the integrity check and return no (partial)
plaintext. -/
theorem C2_roundtrip_and_tamper_detection (file_data key nonce : List Nat)
    (hkey : key.length = 32) (hnonce : nonce.length = 16)
    (hpt : ∀ b ∈ file_data, b < 256) (hnb : ∀ b ∈ nonce, b < 256) :
    decrypt_file (encrypt_file file_data key nonce) key = some file_data ∧
      ∀ (i : Nat) (h : i < (encrypt_file file_data key nonce).length)
        (b : Nat), b < 256 →
        b ≠ (encrypt_file file_data key nonce).get ⟨i, h⟩ →
        decrypt_file ((encrypt_file file_data key nonce).set i b) key
          = none :=
  ⟨decrypt_encrypt file_data key nonce hnonce,
    fun i h b hb hne =>
      decrypt_encrypt_tampered file_data key nonce hnonce hpt hnb i h b hb
        hne⟩

/-- C2 witness: a concrete 3-byte plaintext round-trips; flipping blob byte 0
to 99 makes decryption fail. -/
theorem C2_witness :
    decrypt_file
        (encrypt_file [10, 20, 30] (List.replicate 32 1) (List.range 16))
        (List.replicate 32 1) = some [10, 20, 30] ∧
      decrypt_file
        ((encrypt_file [10, 20, 30] (List.replicate 32 1)
          (List.range 16)).set 0 99)
        (List.replicate 32 1) = none := by
  have h := C2_roundtrip_and_tamper_detection [10, 20, 30]
    (List.replicate 32 1) (List.range 16)
    (by decide) (by decide) (by decide) (by decide)
  exact ⟨h.1, h.2 0 (by decide) 99 (by decide) (by decide)⟩

end Crypto
